import Mathlib

/-!
Shallow embedding of the context-and-patch engine of `r1.py`.

Text is modelled as `List Char` (Python `str`), the file system as an
association list from path strings to content strings, and the global
`conversation_history` together with the file system as a `SysState`.
Python exceptions are modelled with `Except Err`: an `Except.error`
result means the exception propagated out of the embedded code without
any state change (in the source every raise happens before the first
mutation of the corresponding operation).

`pathlib.Path.resolve` is operating-system behaviour, so it is kept
abstract as a `Resolver` (the component sequence of the resolved
absolute path, and its string rendering); `normalize_path` is embedded
on top of it exactly as in the source.
-/

namespace R1

/-- Python text, modelled as a list of characters. -/
abbrev Str := List Char

/-- Shorthand turning a Lean string literal into `Str`. -/
def toL (s : String) : Str := s.toList

/-- Message roles used by `conversation_history` in `r1.py`. -/
inductive Role where
  | system
  | user
  | assistant
deriving DecidableEq

/-- One entry of `conversation_history`: a role and a text body. -/
structure Message where
  role : Role
  content : Str
deriving DecidableEq

/-- The local file system: an association list from path strings to file
contents; the head binding for a path is its current content. -/
abbrev FS := List (Str × Str)

/-- `read_local_file` (r1.py line 114): the content of the file at the
given path, or `none` when the file is missing (Python `FileNotFoundError`
or other `OSError`). -/
def fsRead (fs : FS) (p : Str) : Option Str :=
  match fs with
  | [] => none
  | (q, c) :: rest => if q = p then some c else fsRead rest p

/-- Writing a file (`open(path, "w")` in `create_file`): record the new
content as the current binding for the path, fully overwriting. -/
def fsWrite (fs : FS) (p c : Str) : FS := (p, c) :: fs

/-- The global mutable state of `r1.py`: `conversation_history` and the
local file system. -/
structure SysState where
  hist : List Message
  fs : FS
deriving DecidableEq

/-- The exceptions raised by the embedded code. `pathTraversal`,
`tooLarge`, `snippetNotFound` and `ambiguous` are all `ValueError` in
the source; `notFound` is `FileNotFoundError`/`OSError`. -/
inductive Err where
  | pathTraversal
  | tooLarge
  | notFound
  | snippetNotFound
  | ambiguous (n : Nat)
deriving DecidableEq

/-- Abstraction of `pathlib.Path(p).resolve()`: `parts` is the component
sequence of the resolved absolute path (`path.parts`) and `render` its
string form (`str(path)`). -/
structure Resolver where
  parts : Str → List Str
  render : List Str → Str

/-- The literal `".."` checked against `path.parts`. -/
def dotdot : Str := toL ("..")

/-- `normalize_path` (r1.py lines 227-235): resolve the path, raise
`ValueError` when the resolved component sequence contains `".."`, and
otherwise return the rendered resolved path. -/
def normalize_path (R : Resolver) (p : Str) : Except Err Str :=
  if dotdot ∈ R.parts p then Except.error Err.pathTraversal
  else Except.ok (R.render (R.parts p))

/-- The marker prefix `"Content of file '"` used throughout `r1.py` to
recognise file-context messages. -/
def markerPre : Str := toL ("Content of file '")

/-- A single-quote character as text. -/
def quoteS : Str := toL ("'")

/-- The separator `":\n\n"` between a file marker and the file body. -/
def colonNN : Str := toL (":\n\n")

/-- `f"Content of file '{path}'"`: the marker for one normalized path. -/
def fileMarker (p : Str) : Str := markerPre ++ p ++ quoteS

/-- A file-context entry: the system message
`f"Content of file '{path}':\n\n{content}"`. -/
def entryFor (p content : Str) : Message :=
  ⟨Role.system, fileMarker p ++ colonNN ++ content⟩

/-- The system message `f"File operation: Created/updated file at '{path}'"`
appended by `create_file`. -/
def createOpMsg (p : Str) : Message :=
  ⟨Role.system, toL ("File operation: Created/updated file at '") ++ p ++ quoteS⟩

/-- The system message `f"File operation: Applied diff edit to '{path}'"`
appended by `apply_diff_edit`. -/
def editOpMsg (p : Str) : Message :=
  ⟨Role.system, toL ("File operation: Applied diff edit to '") ++ p ++ quoteS⟩

/-- Python `needle in hay` on strings: `needle` occurs as a contiguous
substring of `hay`. -/
def substrOf (needle : Str) : Str → Bool
  | [] => needle.isEmpty
  | c :: rest => needle.isPrefixOf (c :: rest) || substrOf needle rest

/-- Worker for `occCount`: scan the text left to right; on a match at the
current position count it and skip past the matched characters
(`k` characters of the suffix still to skip). -/
def occGo (needle : Str) : Str → Nat → Nat
  | [], _ => 0
  | _ :: rest, k + 1 => occGo needle rest k
  | c :: rest, 0 =>
    if needle.isPrefixOf (c :: rest) then 1 + occGo needle rest (needle.length - 1)
    else occGo needle rest 0

/-- Python `hay.count(needle)`: the number of non-overlapping occurrences
of `needle` in `hay`, scanning left to right (`len(hay) + 1` for the
empty needle, as in CPython). -/
def occCount (needle hay : Str) : Nat :=
  if needle.isEmpty then hay.length + 1 else occGo needle hay 0

/-- Worker for `replaceFirst`: replace the leftmost occurrence of
`needle` (assumed non-empty) by `repl`. -/
def replaceFirstAux (needle repl : Str) : Str → Str
  | [] => []
  | c :: rest =>
    if needle.isPrefixOf (c :: rest) then repl ++ List.drop (needle.length - 1) rest
    else c :: replaceFirstAux needle repl rest

/-- Python `hay.replace(needle, repl, 1)`: replace the leftmost
occurrence of `needle` in `hay` by `repl` (unchanged when there is none;
prepends `repl` for the empty needle, as in CPython). -/
def replaceFirst (hay needle repl : Str) : Str :=
  if needle.isEmpty then repl ++ hay else replaceFirstAux needle repl hay

/-- `create_file` (r1.py lines 119-145): normalize the path (a raised
`ValueError` propagates), reject content longer than 5,000,000
characters, otherwise write the file and append the operation message
and a fresh file-context entry keyed by the normalized path. -/
def create_file (R : Resolver) (s : SysState) (path content : Str) : Except Err SysState :=
  match normalize_path R path with
  | Except.error e => Except.error e
  | Except.ok np =>
    if 5000000 < content.length then Except.error Err.tooLarge
    else Except.ok
      { hist := s.hist ++ [createOpMsg path, entryFor np content],
        fs := fsWrite s.fs path content }

/-- The body of `apply_diff_edit` (r1.py lines 161-180) before its
exception handlers: read the file, count occurrences of the original
snippet, raise on zero or several, otherwise replace the single
occurrence, write through `create_file` and append the edit message. -/
def applyEditCore (R : Resolver) (s : SysState) (path orig new : Str) : Except Err SysState :=
  match fsRead s.fs path with
  | none => Except.error Err.notFound
  | some content =>
    let occ := occCount orig content
    if occ = 0 then Except.error Err.snippetNotFound
    else if 1 < occ then Except.error (Err.ambiguous occ)
    else
      match create_file R s path (replaceFirst content orig new) with
      | Except.error e => Except.error e
      | Except.ok s1 => Except.ok { s1 with hist := s1.hist ++ [editOpMsg path] }

/-- `apply_diff_edit` (r1.py lines 161-188) as seen by its caller: every
`FileNotFoundError` and `ValueError` raised by the body is caught and
reported, leaving the state unchanged. -/
def apply_diff_edit (R : Resolver) (s : SysState) (path orig new : Str) : SysState :=
  match applyEditCore R s path orig new with
  | Except.ok s1 => s1
  | Except.error _ => s

/-- `any("Content of file '<np>'" in msg["content"] for msg in history)`:
whether a marker for the normalized path occurs in some history entry. -/
def hasMarker (hist : List Message) (np : Str) : Bool :=
  hist.any (fun m => substrOf (fileMarker np) m.content)

/-- `ensure_file_in_context` (r1.py lines 212-225): normalize (a raised
`ValueError` propagates past the `except OSError`), read the file
(failure is caught and yields `False`), and append a file-context entry
unless the marker is already present somewhere in the history. -/
def ensure_file_in_context (R : Resolver) (s : SysState) (p : Str) :
    Except Err (Bool × SysState) :=
  match normalize_path R p with
  | Except.error e => Except.error e
  | Except.ok np =>
    match fsRead s.fs np with
    | none => Except.ok (false, s)
    | some content =>
      if hasMarker s.hist np then Except.ok (true, s)
      else Except.ok (true, { s with hist := s.hist ++ [entryFor np content] })

/-- The effect of a recognised `/add <path>` directive
(`try_handle_add_command`, r1.py lines 190-210): read the file (an
`OSError` is caught and reported, leaving the state unchanged), then
normalize (a raised `ValueError` propagates) and append a file-context
entry unconditionally. -/
def try_add (R : Resolver) (s : SysState) (p : Str) : Except Err SysState :=
  match fsRead s.fs p with
  | none => Except.ok s
  | some content =>
    match normalize_path R p with
    | Except.error e => Except.error e
    | Except.ok np =>
      Except.ok { s with hist := s.hist ++ [entryFor np content] }

/-- The per-path injection in `stream_openai_response` (r1.py lines
289-302) for one guessed, already-normalized path: read the file (an
`OSError` skips the path) and append a file-context entry unless its
marker is already present. -/
def scanInject (_R : Resolver) (s : SysState) (p : Str) : SysState :=
  match fsRead s.fs p with
  | none => s
  | some content =>
    if hasMarker s.hist p then s
    else { s with hist := s.hist ++ [entryFor p content] }

/-- The file-context test of the compaction pass (r1.py line 268):
a system message whose body contains `"Content of file '"`. -/
def isFileContextMsg (m : Message) : Bool :=
  (match m.role with | Role.system => true | _ => false) && substrOf markerPre m.content

/-- The user/assistant test of the compaction pass (r1.py line 270). -/
def isUserAssistantMsg (m : Message) : Bool :=
  match m.role with
  | Role.user => true
  | Role.assistant => true
  | Role.system => false

/-- The partition loop of the compaction pass (r1.py lines 267-271): one
pass over the tail of the history collecting file-context messages and
user/assistant messages, in order, dropping everything else. -/
def splitCompact : List Message → List Message × List Message
  | [] => ([], [])
  | m :: rest =>
    let p := splitCompact rest
    if isFileContextMsg m then (m :: p.1, p.2)
    else if isUserAssistantMsg m then (p.1, m :: p.2)
    else p

/-- `if len(user_assistant_pairs) % 2 != 0: user_assistant_pairs =
user_assistant_pairs[:-1]` (r1.py lines 274-275). -/
def dropUnpaired (ua : List Message) : List Message :=
  if ua.length % 2 = 0 then ua else ua.dropLast

/-- The compaction-and-rebuild pass at the head of
`stream_openai_response` (r1.py lines 261-284): keep the initial message,
partition the rest, drop an unpaired trailing user/assistant message, and
rebuild the history with the new user message appended. -/
def compactAndRebuild (first : Message) (rest : List Message) (userText : Str) : List Message :=
  let p := splitCompact rest
  (first :: p.1) ++ dropUnpaired p.2 ++ [⟨Role.user, userText⟩]

/-- `files_to_create` items (r1.py class FileToCreate). -/
structure FileToCreate where
  path : Str
  content : Str
deriving DecidableEq

/-- `files_to_edit` items (r1.py class FileToEdit). -/
structure FileToEdit where
  path : Str
  original_snippet : Str
  new_snippet : Str
deriving DecidableEq

/-- The backend's parsed JSON payload (the dict `parsed_response` after
`json.loads`, with `assistant_reply` defaulted); `none` models an absent
optional key. -/
structure ParsedResponse where
  assistant_reply : Str
  files_to_create : Option (List FileToCreate)
  files_to_edit : Option (List FileToEdit)
deriving DecidableEq

/-- The validated `AssistantResponse` handed to the session loop
(r1.py class AssistantResponse). -/
structure AssistantResponse where
  assistant_reply : Str
  files_to_create : Option (List FileToCreate)
  files_to_edit : Option (List FileToEdit)
deriving DecidableEq

/-- The edit-validation loop of `stream_openai_response` (r1.py lines
337-347): for each proposed edit normalize its path (failure drops the
edit), accept it when the path is a key of `valid_files` or
`ensure_file_in_context` succeeds (threading its history mutation), and
drop it otherwise; an exception raised inside is caught by the loop's
`except (OSError, ValueError)` and drops the edit. -/
def filterEditsGo (R : Resolver) (vk : List Str) :
    List FileToEdit → SysState → List FileToEdit × SysState
  | [], s => ([], s)
  | e :: rest, s =>
    match normalize_path R e.path with
    | Except.error _ => filterEditsGo R vk rest s
    | Except.ok np =>
      if np ∈ vk then
        let r := filterEditsGo R vk rest s
        ({ e with path := np } :: r.1, r.2)
      else
        match ensure_file_in_context R s np with
        | Except.error _ => filterEditsGo R vk rest s
        | Except.ok (true, s1) =>
          let r := filterEditsGo R vk rest s1
          ({ e with path := np } :: r.1, r.2)
        | Except.ok (false, s1) => filterEditsGo R vk rest s1

/-- The response-classification step of `stream_openai_response` (r1.py
lines 330-349) on an already-parsed payload: filter the proposed edits
when the `files_to_edit` key is present and non-empty (Python
truthiness), leaving the reply and the proposed creates untouched. -/
def classify (R : Resolver) (s : SysState) (vk : List Str) (pr : ParsedResponse) :
    AssistantResponse × SysState :=
  match pr.files_to_edit with
  | none => (⟨pr.assistant_reply, pr.files_to_create, none⟩, s)
  | some [] => (⟨pr.assistant_reply, pr.files_to_create, some []⟩, s)
  | some (e :: rest) =>
    let r := filterEditsGo R vk (e :: rest) s
    (⟨pr.assistant_reply, pr.files_to_create, some r.1⟩, r.2)

/-- The reply text of the `json.JSONDecodeError` fallback
(r1.py line 360). -/
def jsonErrMsg : Str := toL ("Failed to parse JSON response from assistant")

/-- The fallback `AssistantResponse` returned on a malformed backend
payload (r1.py lines 362-365): the error as the reply, an explicit empty
create list, and no edit list. -/
def fallbackResponse : AssistantResponse := ⟨jsonErrMsg, some [], none⟩

/-- The tail of `stream_openai_response` (r1.py lines 330-365) on the
accumulated final backend text: structured parsing (abstracted as
`parse`, `none` for `json.JSONDecodeError`), then classification and the
append of the raw assistant message; on a parse failure the fallback
response is returned and the state is untouched. -/
def handleFinalContent (R : Resolver) (s : SysState) (vk : List Str)
    (parse : Str → Option ParsedResponse) (text : Str) : AssistantResponse × SysState :=
  match parse text with
  | none => (fallbackResponse, s)
  | some pr =>
    let r := classify R s vk pr
    (r.1, { r.2 with hist := r.2.hist ++ [⟨Role.assistant, text⟩] })

/-- The create-application loop of `main` (r1.py lines 408-410): apply
each proposed create in order; an exception raised by `create_file` is
not caught anywhere in `main`, so it aborts the whole loop (and the
session). -/
def processCreates (R : Resolver) : List FileToCreate → SysState → Except Err SysState
  | [], s => Except.ok s
  | f :: rest, s =>
    match create_file R s f.path f.content with
    | Except.error e => Except.error e
    | Except.ok s1 => processCreates R rest s1

/-- The edit-application loop of `main` (r1.py lines 417-419):
`apply_diff_edit` contains its own failures, so the loop is total. -/
def processEdits (R : Resolver) : List FileToEdit → SysState → SysState
  | [], s => s
  | e :: rest, s => processEdits R rest (apply_diff_edit R s e.path e.original_snippet e.new_snippet)

/-- One turn's action processing in `main` (r1.py lines 408-421): apply
creates when the list is truthy, then — when the edit list is truthy and
the user confirms — apply the edits. -/
def processTurnActions (R : Resolver) (confirm : Bool) (resp : AssistantResponse)
    (s : SysState) : Except Err SysState :=
  match (match resp.files_to_create with
         | some (f :: fs) => processCreates R (f :: fs) s
         | _ => Except.ok s) with
  | Except.error e => Except.error e
  | Except.ok s1 =>
    match resp.files_to_edit with
    | some (e :: es) => if confirm then Except.ok (processEdits R (e :: es) s1) else Except.ok s1
    | _ => Except.ok s1

/-- States of the global `conversation_history`/file-system pair reachable
from the initial state `⟨[m0], fs0⟩` (the lone system prompt, r1.py lines
240-242) by the history-mutating operations of `r1.py`: a handled `/add`
directive, a file creation, an edit-context injection, a pre-call scan
injection, the compaction pass, an appended assistant reply, and a diff
edit. -/
inductive Reach (R : Resolver) (m0 : Message) (fs0 : FS) : SysState → Prop where
  | init : Reach R m0 fs0 ⟨[m0], fs0⟩
  | add {s s' : SysState} {p : Str} : Reach R m0 fs0 s →
      try_add R s p = Except.ok s' → Reach R m0 fs0 s'
  | create {s s' : SysState} {p c : Str} : Reach R m0 fs0 s →
      create_file R s p c = Except.ok s' → Reach R m0 fs0 s'
  | ensure {s s' : SysState} {b : Bool} {p : Str} : Reach R m0 fs0 s →
      ensure_file_in_context R s p = Except.ok (b, s') → Reach R m0 fs0 s'
  | scan {s : SysState} {p : Str} : Reach R m0 fs0 s →
      Reach R m0 fs0 (scanInject R s p)
  | compact {s : SysState} {first : Message} {rest : List Message} {u : Str} :
      Reach R m0 fs0 s → s.hist = first :: rest →
      Reach R m0 fs0 ⟨compactAndRebuild first rest u, s.fs⟩
  | assistantReply {s : SysState} {t : Str} : Reach R m0 fs0 s →
      Reach R m0 fs0 ⟨s.hist ++ [⟨Role.assistant, t⟩], s.fs⟩
  | edit {s : SysState} {p o n : Str} : Reach R m0 fs0 s →
      Reach R m0 fs0 (apply_diff_edit R s p o n)

/-- A ledger entry that is a `FileContextEntry` for a given normalized
path: a system message starting with that path's marker. -/
def isEntryFor (np : Str) (m : Message) : Bool :=
  (match m.role with | Role.system => true | _ => false) &&
    (fileMarker np ++ toL (":")).isPrefixOf m.content

/-- The number of `FileContextEntry` messages for a given normalized path
present in a history. -/
def countEntriesFor (hist : List Message) (np : Str) : Nat :=
  (hist.filter (isEntryFor np)).length

/-- The state observed by a caller that catches the exception of a
fallible operation: the new state on success, the untouched pre-call
state on an error (every raise in the source happens before the first
mutation of its operation). -/
def stateAfter (s : SysState) : Except Err SysState → SysState
  | Except.ok s1 => s1
  | Except.error _ => s

/-- A concrete resolver for witnesses: the path is resolved to the single
component holding the whole path text. -/
def rId : Resolver :=
  { parts := fun p => [p], render := fun l => l.foldr (fun a b => a ++ b) [] }

/-- A concrete resolver whose resolution leaves a parent-directory
segment, exercising the traversal branch of `normalize_path`. -/
def rDot : Resolver := { parts := fun _ => [dotdot], render := fun _ => [] }

/-- The initial system-prompt message (r1.py lines 240-242); the claims
depend only on its position, never on the prompt text, so the text is
abbreviated here. -/
def m0W : Message := ⟨Role.system, toL ("You are an elite software engineer called DeepSeek Engineer")⟩

/-- Witness path `/tmp/a.txt`. -/
def paW : Str := toL ("/tmp/a.txt")

/-- Witness content of `/tmp/a.txt`. -/
def caW : Str := toL ("alpha")

/-- Witness file system holding only `/tmp/a.txt`. -/
def fsW : FS := [(paW, caW)]

/-- A content string of length 5,000,001, one character over the write
ceiling of `create_file`. -/
def bigC : Str := List.replicate 5000001 ('a')

/-- Witness path `/tmp/b.txt`. -/
def pbW : Str := toL ("/tmp/b.txt")

/-- The one-character content `"x"`. -/
def xW : Str := toL ("x")

/-- The duplicated file-context entry of the C2 counterexample. -/
def e2W : Message := entryFor paW caW

/-- The state reached after two `/add /tmp/a.txt` directives: the ledger
holds two identical file-context entries for the same normalized path. -/
def dupW : SysState := ⟨[m0W, e2W, e2W], fsW⟩

/-- State for the ambiguous-edit scenario: `/tmp/a.txt` holding
`"foo\n\nfoo\n"`-like content with two occurrences of `"foo"`. -/
def sA : SysState := ⟨[m0W], [(paW, toL ("foo\nfoo\n"))]⟩

/-- State for the oversized-edit counterexample: `/tmp/b.txt` holds `"x"`. -/
def sX : SysState := ⟨[m0W], [(pbW, xW)]⟩

/-- State for the successful-edit scenario: `/tmp/b.txt` holds
`"hello world"`. -/
def sB : SysState := ⟨[m0W], [(pbW, toL ("hello world"))]⟩

/-- A proposed edit whose normalized path has no file behind it. -/
def eMiss : FileToEdit := ⟨toL ("/tmp/miss.txt"), xW, xW⟩

/-- A proposed edit on the existing witness file `/tmp/a.txt`. -/
def eOk : FileToEdit := ⟨paW, toL ("alpha"), toL ("beta")⟩

/-- A proposed create whose content is over the write ceiling. -/
def cBig : FileToCreate := ⟨paW, bigC⟩

/-- A small proposed create, the sibling of `cBig` in the C5
counterexample. -/
def cSmall : FileToCreate := ⟨pbW, caW⟩

/-- C10 witness: a normalized path that is a proper prefix of another. -/
def pPre : Str := toL ("/tmp/dir/f")

/-- C10 witness: a distinct normalized path extending `pPre` (a file name
containing a quote character). -/
def qExt : Str := toL ("/tmp/dir/f'")

/-- The file body of `pPre`, never injected in the C10 scenario. -/
def bodyP : Str := toL ("p secret body")

/-- The file body of `qExt`. -/
def bodyQ : Str := toL ("q body")

/-- C10 state: the ledger holds the file-context entry for `qExt` only,
while both files exist on disk. -/
def s10 : SysState := ⟨[m0W, entryFor qExt bodyQ], [(pPre, bodyP), (qExt, bodyQ)]⟩

/-! Helper lemmas shared by the claim theorems. -/

theorem fileContext_not_userAssistant (m : Message) (h : isFileContextMsg m = true) :
    isUserAssistantMsg m = false := by
  cases m with
  | mk role content =>
    cases role
    · rfl
    · simp [isFileContextMsg] at h
    · simp [isFileContextMsg] at h

theorem splitCompact_eq (l : List Message) :
    splitCompact l = (l.filter isFileContextMsg, l.filter isUserAssistantMsg) := by
  induction l with
  | nil => rfl
  | cons m rest ih =>
    cases hfc : isFileContextMsg m with
    | true =>
      have hua := fileContext_not_userAssistant m hfc
      simp [splitCompact, ih, List.filter_cons, hfc, hua]
    | false =>
      cases hua : isUserAssistantMsg m with
      | true => simp [splitCompact, ih, List.filter_cons, hfc, hua]
      | false => simp [splitCompact, ih, List.filter_cons, hfc, hua]

theorem create_file_tooLarge (R : Resolver) (s : SysState) (path content np : Str)
    (hn : normalize_path R path = Except.ok np) (hl : 5000000 < content.length) :
    create_file R s path content = Except.error Err.tooLarge := by
  unfold create_file
  simp only [hn]
  rw [if_pos hl]

theorem create_file_ok (R : Resolver) (s : SysState) (path content np : Str)
    (hn : normalize_path R path = Except.ok np) (hl : content.length ≤ 5000000) :
    create_file R s path content =
      Except.ok ⟨s.hist ++ [createOpMsg path, entryFor np content], fsWrite s.fs path content⟩ := by
  unfold create_file
  simp only [hn]
  rw [if_neg (Nat.not_lt.mpr hl)]

theorem fsRead_fsWrite (fs : FS) (p c : Str) : fsRead (fsWrite fs p c) p = some c := by
  simp [fsRead, fsWrite]

theorem bigC_length : bigC.length = 5000001 := by
  unfold bigC
  rw [List.length_replicate]

theorem apply_diff_edit_of_error (R : Resolver) (s : SysState) (path orig new : Str) (err : Err)
    (h : applyEditCore R s path orig new = Except.error err) :
    apply_diff_edit R s path orig new = s := by
  unfold apply_diff_edit
  simp only [h]

theorem applyEditCore_write_error (R : Resolver) (s : SysState) (path orig new content : Str)
    (e : Err) (hread : fsRead s.fs path = some content)
    (hocc : occCount orig content = 1)
    (hcf : create_file R s path (replaceFirst content orig new) = Except.error e) :
    applyEditCore R s path orig new = Except.error e := by
  unfold applyEditCore
  simp only [hread, hocc]
  norm_num
  simp only [hcf]

theorem processCreates_cons_error (R : Resolver) (f : FileToCreate) (rest : List FileToCreate)
    (s : SysState) (e : Err) (h : create_file R s f.path f.content = Except.error e) :
    processCreates R (f :: rest) s = Except.error e := by
  unfold processCreates
  simp only [h]

/-- C1: for every ledger state `first :: rest` and every new user text,
the compaction pass partitions the existing messages into the initial
message, the file-context messages and the user/assistant messages in
order, drops the final user/assistant message when their count is odd,
and rebuilds the ledger as initial message, then file-context entries,
then the paired user/assistant messages, then the new user message. -/
theorem compact_partitions (first : Message) (rest : List Message) (u : Str) :
    compactAndRebuild first rest u =
      [first] ++ rest.filter isFileContextMsg ++
        (if (rest.filter isUserAssistantMsg).length % 2 = 1
          then (rest.filter isUserAssistantMsg).dropLast
          else rest.filter isUserAssistantMsg) ++
        [⟨Role.user, u⟩] := by
  unfold compactAndRebuild dropUnpaired
  rw [splitCompact_eq]
  rcases Nat.mod_two_eq_zero_or_one (rest.filter isUserAssistantMsg).length with h | h <;>
    simp [h]

/-- C2 counterexample: after two handled `/add /tmp/a.txt` directives the
ledger — a reachable state — holds two `FileContextEntry` messages for
the same normalized path, so the at-most-one-entry-per-path invariant
fails. -/
theorem dup_entries_reachable :
    Reach rId m0W fsW dupW ∧ countEntriesFor dupW.hist paW = 2 := by
  constructor
  · have h1 : try_add rId ⟨[m0W], fsW⟩ paW = Except.ok ⟨[m0W, e2W], fsW⟩ := rfl
    have h2 : try_add rId ⟨[m0W, e2W], fsW⟩ paW = Except.ok dupW := rfl
    exact Reach.add (Reach.add Reach.init h1) h2
  · rfl

/-- C2 amended: only the edit-context injection and the pre-call scan
injection deduplicate — when a marker for the normalized path is already
present in the ledger they leave the state untouched; the `/add`
directive and file creation append a `FileContextEntry` unconditionally,
so duplicate entries for one normalized path are reachable. -/
theorem injection_dedup (R : Resolver) (s : SysState) (p np : Str)
    (hn : normalize_path R p = Except.ok np)
    (hm : hasMarker s.hist np = true) :
    (∃ b, ensure_file_in_context R s p = Except.ok (b, s)) ∧ scanInject R s np = s := by
  constructor
  · cases hr : fsRead s.fs np with
    | none =>
      exact ⟨false, by unfold ensure_file_in_context; simp only [hn, hr]⟩
    | some content =>
      exact ⟨true, by unfold ensure_file_in_context; simp only [hn, hr, hm, if_pos]⟩
  · unfold scanInject
    cases hr : fsRead s.fs np with
    | none => rfl
    | some content => simp only [hm, if_pos]

/-- C2 witness: the dedup theorem applied at the duplicated ledger state
for the concrete path `/tmp/a.txt`. -/
theorem injection_dedup_witness :
    normalize_path rId paW = Except.ok paW ∧ hasMarker dupW.hist paW = true ∧
      ((∃ b, ensure_file_in_context rId dupW paW = Except.ok (b, dupW)) ∧
        scanInject rId dupW paW = dupW) :=
  ⟨rfl, rfl, injection_dedup rId dupW paW paW rfl rfl⟩

/-- C3: when the file exists and the original snippet occurs zero times,
the edit fails with the snippet-not-found error; when it occurs more than
once, with the ambiguous error carrying the occurrence count; in both
cases the caller-visible state — in particular the target file's
content — is byte-identical to before the call. -/
theorem applyEdit_failure_atomic (R : Resolver) (s : SysState) (path orig new content : Str)
    (hread : fsRead s.fs path = some content)
    (hocc : occCount orig content = 0 ∨ 1 < occCount orig content) :
    applyEditCore R s path orig new =
      Except.error (if occCount orig content = 0 then Err.snippetNotFound
        else Err.ambiguous (occCount orig content)) ∧
    apply_diff_edit R s path orig new = s ∧
    fsRead (apply_diff_edit R s path orig new).fs path = some content := by
  have hcore : applyEditCore R s path orig new =
      Except.error (if occCount orig content = 0 then Err.snippetNotFound
        else Err.ambiguous (occCount orig content)) := by
    unfold applyEditCore
    simp only [hread]
    rcases hocc with h | h
    · simp [h]
    · have h0 : ¬ occCount orig content = 0 := by omega
      simp [h0, h]
  have hwrap : apply_diff_edit R s path orig new = s := by
    unfold apply_diff_edit
    simp only [hcore]
  exact ⟨hcore, hwrap, by rw [hwrap]; exact hread⟩

/-- C3 witness: `/tmp/a.txt` holds two occurrences of `"foo"`, so the
edit fails with `ambiguous 2` and the state is unchanged. -/
theorem applyEdit_failure_atomic_witness :
    fsRead sA.fs paW = some (toL ("foo\nfoo\n")) ∧
    occCount (toL ("foo")) (toL ("foo\nfoo\n")) = 2 ∧
    (applyEditCore rId sA paW (toL ("foo")) (toL ("bar")) =
        Except.error (Err.ambiguous 2) ∧
      apply_diff_edit rId sA paW (toL ("foo")) (toL ("bar")) = sA ∧
      fsRead (apply_diff_edit rId sA paW (toL ("foo")) (toL ("bar"))).fs paW =
        some (toL ("foo\nfoo\n"))) :=
  ⟨rfl, by decide,
   applyEdit_failure_atomic rId sA paW (toL ("foo")) (toL ("bar")) (toL ("foo\nfoo\n"))
     rfl (Or.inr (by decide))⟩

/-- C4 counterexample: `/tmp/b.txt` holds `"x"`, which contains exactly
one occurrence of the original snippet `"x"`, yet the edit with a
5,000,001-character replacement fails inside `create_file` (size
ceiling), the exception is caught, and neither the file nor the ledger
changes — no `FileContextEntry` with the updated content appears. -/
theorem applyEdit_oversize_cx :
    occCount xW xW = 1 ∧
    apply_diff_edit rId sX pbW xW bigC = sX ∧
    fsRead (apply_diff_edit rId sX pbW xW bigC).fs pbW = some xW ∧
    countEntriesFor (apply_diff_edit rId sX pbW xW bigC).hist pbW = 0 := by
  have hrep : replaceFirst xW xW bigC = bigC ++ [] := rfl
  have hlen : 5000000 < (replaceFirst xW xW bigC).length := by
    rw [hrep, List.length_append, bigC_length]
    decide
  have hcf := create_file_tooLarge rId sX pbW (replaceFirst xW xW bigC) pbW rfl hlen
  have hcore : applyEditCore rId sX pbW xW bigC = Except.error Err.tooLarge :=
    applyEditCore_write_error rId sX pbW xW bigC xW Err.tooLarge rfl (by decide) hcf
  have hwrap : apply_diff_edit rId sX pbW xW bigC = sX :=
    apply_diff_edit_of_error rId sX pbW xW bigC Err.tooLarge hcore
  exact ⟨by decide, hwrap, by rw [hwrap]; rfl, by rw [hwrap]; rfl⟩

/-- C4 amended: when the file exists, the original snippet occurs exactly
once, the path passes normalization, and the updated content stays
within the 5,000,000-character write ceiling, the edit replaces that
single occurrence, writes the updated content back to the file, and
appends a `FileContextEntry` reflecting the updated content (plus the
two operation notes). -/
theorem applyEdit_success (R : Resolver) (s : SysState) (path orig new content np : Str)
    (hread : fsRead s.fs path = some content)
    (hocc : occCount orig content = 1)
    (hn : normalize_path R path = Except.ok np)
    (hlen : (replaceFirst content orig new).length ≤ 5000000) :
    apply_diff_edit R s path orig new =
      ⟨s.hist ++ [createOpMsg path, entryFor np (replaceFirst content orig new), editOpMsg path],
        fsWrite s.fs path (replaceFirst content orig new)⟩ ∧
    entryFor np (replaceFirst content orig new) ∈ (apply_diff_edit R s path orig new).hist ∧
    fsRead (apply_diff_edit R s path orig new).fs path =
      some (replaceFirst content orig new) := by
  have hcf := create_file_ok R s path (replaceFirst content orig new) np hn hlen
  have hcore : applyEditCore R s path orig new =
      Except.ok ⟨s.hist ++ [createOpMsg path, entryFor np (replaceFirst content orig new),
          editOpMsg path],
        fsWrite s.fs path (replaceFirst content orig new)⟩ := by
    unfold applyEditCore
    simp only [hread, hocc]
    norm_num
    simp only [hcf]
    simp [List.append_assoc]
  have hwrap : apply_diff_edit R s path orig new =
      ⟨s.hist ++ [createOpMsg path, entryFor np (replaceFirst content orig new), editOpMsg path],
        fsWrite s.fs path (replaceFirst content orig new)⟩ := by
    unfold apply_diff_edit
    simp only [hcore]
  refine ⟨hwrap, ?_, ?_⟩
  · rw [hwrap]
    simp
  · rw [hwrap]
    exact fsRead_fsWrite s.fs path (replaceFirst content orig new)

/-- C4 witness: `/tmp/b.txt` holds `"hello world"`; editing
`"world" -> "there"` succeeds, the file reads `"hello there"`, and a
`FileContextEntry` with the new content is in the ledger. -/
theorem applyEdit_success_witness :
    fsRead sB.fs pbW = some (toL ("hello world")) ∧
    occCount (toL ("world")) (toL ("hello world")) = 1 ∧
    normalize_path rId pbW = Except.ok pbW ∧
    (replaceFirst (toL ("hello world")) (toL ("world")) (toL ("there"))).length ≤ 5000000 ∧
    fsRead (apply_diff_edit rId sB pbW (toL ("world")) (toL ("there"))).fs pbW =
      some (toL ("hello there")) ∧
    entryFor pbW (toL ("hello there")) ∈
      (apply_diff_edit rId sB pbW (toL ("world")) (toL ("there"))).hist :=
  ⟨rfl, by decide, rfl, by decide,
   (applyEdit_success rId sB pbW (toL ("world")) (toL ("there")) (toL ("hello world")) pbW
      rfl (by decide) rfl (by decide)).2.2,
   (applyEdit_success rId sB pbW (toL ("world")) (toL ("there")) (toL ("hello world")) pbW
      rfl (by decide) rfl (by decide)).2.1⟩

/-- C5 counterexample: a turn whose response proposes two creates, the
first of which raises the size-ceiling `ValueError`; `main` wraps the
create loop in no handler, so the exception aborts the loop — the
sibling create is never processed and the session terminates. -/
theorem create_error_aborts_turn :
    processCreates rId [cBig, cSmall] ⟨[m0W], fsW⟩ = Except.error Err.tooLarge := by
  have hl : 5000000 < cBig.content.length := by
    rw [show cBig.content = bigC from rfl, bigC_length]
    decide
  have hcf : create_file rId ⟨[m0W], fsW⟩ cBig.path cBig.content = Except.error Err.tooLarge :=
    create_file_tooLarge rId ⟨[m0W], fsW⟩ cBig.path cBig.content paW rfl hl
  exact processCreates_cons_error rId cBig [cSmall] ⟨[m0W], fsW⟩ Err.tooLarge hcf

/-- C5 amended: an error while processing one edit action is contained to
that edit — the caught exception leaves the state unchanged and the
sibling edits of the same turn are still processed — whereas an error
raised while processing a create action propagates out of the
unprotected create loop and terminates the session. -/
theorem edit_error_contained (R : Resolver) (s : SysState) (e : FileToEdit)
    (rest : List FileToEdit)
    (h : ∃ err, applyEditCore R s e.path e.original_snippet e.new_snippet = Except.error err) :
    processEdits R (e :: rest) s = processEdits R rest s := by
  obtain ⟨err, herr⟩ := h
  have hw : apply_diff_edit R s e.path e.original_snippet e.new_snippet = s := by
    unfold apply_diff_edit
    simp only [herr]
  show processEdits R rest (apply_diff_edit R s e.path e.original_snippet e.new_snippet) =
    processEdits R rest s
  rw [hw]

/-- C5 witness: an edit on a missing file fails with `notFound`, and the
sibling edit of the same turn is still processed from the unchanged
state. -/
theorem edit_error_contained_witness :
    applyEditCore rId sA eMiss.path eMiss.original_snippet eMiss.new_snippet =
      Except.error Err.notFound ∧
    processEdits rId [eMiss, eOk] sA = processEdits rId [eOk] sA :=
  ⟨rfl, edit_error_contained rId sA eMiss [eOk] ⟨Err.notFound, rfl⟩⟩

/-- C6: a proposed edit whose path fails normalization, or whose
normalized path has no readable file behind it (and is no pre-scanned
valid file), is dropped by the classifier, while the reply, the proposed
creates and the remaining edits are delivered exactly as if the bad edit
had not been proposed. -/
theorem invalid_edit_dropped (R : Resolver) (s : SysState) (vk : List Str) (reply : Str)
    (creates : Option (List FileToCreate)) (e : FileToEdit) (rest : List FileToEdit)
    (h : (∃ err, normalize_path R e.path = Except.error err) ∨
      (∃ np np2, normalize_path R e.path = Except.ok np ∧ np ∉ vk ∧
        normalize_path R np = Except.ok np2 ∧ fsRead s.fs np2 = none)) :
    classify R s vk ⟨reply, creates, some (e :: rest)⟩ =
      classify R s vk ⟨reply, creates, some rest⟩ ∧
    (classify R s vk ⟨reply, creates, some (e :: rest)⟩).1.assistant_reply = reply ∧
    (classify R s vk ⟨reply, creates, some (e :: rest)⟩).1.files_to_create = creates := by
  have hgo : filterEditsGo R vk (e :: rest) s = filterEditsGo R vk rest s := by
    rcases h with ⟨err, herr⟩ | ⟨np, np2, h1, h2, h3, h4⟩
    · simp only [filterEditsGo, herr]
    · have he : ensure_file_in_context R s np = Except.ok (false, s) := by
        unfold ensure_file_in_context
        simp only [h3, h4]
      simp only [filterEditsGo, h1]
      rw [if_neg h2]
      simp only [he]
  refine ⟨?_, rfl, rfl⟩
  cases rest with
  | nil =>
    simp only [classify]
    rw [hgo]
    exact rfl
  | cons r rs =>
    simp only [classify]
    rw [hgo]

/-- C6 witness: an edit on `/tmp/miss.txt` (normalizes fine, no file on
disk) is dropped while the reply and creates are preserved. -/
theorem invalid_edit_dropped_witness :
    (normalize_path rId (toL ("/tmp/miss.txt")) = Except.ok (toL ("/tmp/miss.txt")) ∧
      fsRead fsW (toL ("/tmp/miss.txt")) = none) ∧
    (classify rId ⟨[m0W], fsW⟩ [] ⟨toL ("ok"), some [cSmall], some [eMiss]⟩ =
        classify rId ⟨[m0W], fsW⟩ [] ⟨toL ("ok"), some [cSmall], some []⟩ ∧
      (classify rId ⟨[m0W], fsW⟩ [] ⟨toL ("ok"), some [cSmall],
          some [eMiss]⟩).1.assistant_reply = toL ("ok") ∧
      (classify rId ⟨[m0W], fsW⟩ [] ⟨toL ("ok"), some [cSmall],
          some [eMiss]⟩).1.files_to_create = some [cSmall]) :=
  ⟨⟨rfl, rfl⟩,
   invalid_edit_dropped rId ⟨[m0W], fsW⟩ [] (toL ("ok")) (some [cSmall]) eMiss []
     (Or.inr ⟨toL ("/tmp/miss.txt"), toL ("/tmp/miss.txt"), rfl, List.not_mem_nil _, rfl, rfl⟩)⟩

/-- C7: when the backend's final text is not parsable structured data,
the classifier returns the fallback response — the parse-error text as
the reply, an empty create list and no edit list — without touching the
state, and processing that response in the session loop succeeds with no
state change, so the loop continues to the next prompt. -/
theorem malformed_fallback (R : Resolver) (s : SysState) (vk : List Str)
    (parse : Str → Option ParsedResponse) (text : Str) (confirm : Bool)
    (h : parse text = none) :
    handleFinalContent R s vk parse text = (fallbackResponse, s) ∧
    processTurnActions R confirm (handleFinalContent R s vk parse text).1 s =
      Except.ok s := by
  have h1 : handleFinalContent R s vk parse text = (fallbackResponse, s) := by
    unfold handleFinalContent
    simp only [h]
  refine ⟨h1, ?_⟩
  rw [h1]
  rfl

/-- C7 witness: a parser rejecting every text yields the fallback
response and an unchanged, continuing session. -/
theorem malformed_fallback_witness :
    (fun (_ : Str) => (none : Option ParsedResponse)) (toL ("-")) = none ∧
    handleFinalContent rId ⟨[m0W], fsW⟩ [] (fun _ => none) (toL ("-")) =
      (fallbackResponse, ⟨[m0W], fsW⟩) ∧
    processTurnActions rId true
        (handleFinalContent rId ⟨[m0W], fsW⟩ [] (fun _ => none) (toL ("-"))).1
        ⟨[m0W], fsW⟩ =
      Except.ok ⟨[m0W], fsW⟩ :=
  ⟨rfl,
   (malformed_fallback rId ⟨[m0W], fsW⟩ [] (fun _ => none) (toL ("-")) true rfl).1,
   (malformed_fallback rId ⟨[m0W], fsW⟩ [] (fun _ => none) (toL ("-")) true rfl).2⟩

/-- C8: for a path that passes normalization, writing content longer than
5,000,000 characters fails with the size error and a caller that catches
it observes the pre-existing file untouched; otherwise the write
succeeds, fully overwriting the file with the given content and
appending the confirmation note and a fresh file-context entry. -/
theorem write_size_limit (R : Resolver) (s : SysState) (path content np : Str)
    (hn : normalize_path R path = Except.ok np) :
    (5000000 < content.length →
      create_file R s path content = Except.error Err.tooLarge ∧
      fsRead (stateAfter s (create_file R s path content)).fs path = fsRead s.fs path) ∧
    (content.length ≤ 5000000 →
      create_file R s path content =
        Except.ok ⟨s.hist ++ [createOpMsg path, entryFor np content],
          fsWrite s.fs path content⟩ ∧
      fsRead (stateAfter s (create_file R s path content)).fs path = some content) := by
  constructor
  · intro hl
    have hcf := create_file_tooLarge R s path content np hn hl
    exact ⟨hcf, by rw [hcf]; rfl⟩
  · intro hl
    have hcf := create_file_ok R s path content np hn hl
    refine ⟨hcf, ?_⟩
    rw [hcf]
    exact fsRead_fsWrite s.fs path content

/-- C8 witness: content of length 5,000,001 is rejected and the
pre-existing file is untouched; a small write succeeds and overwrites. -/
theorem write_size_limit_witness :
    normalize_path rId paW = Except.ok paW ∧
    5000000 < bigC.length ∧
    create_file rId ⟨[m0W], fsW⟩ paW bigC = Except.error Err.tooLarge ∧
    fsRead (stateAfter ⟨[m0W], fsW⟩ (create_file rId ⟨[m0W], fsW⟩ paW bigC)).fs paW =
      fsRead fsW paW ∧
    caW.length ≤ 5000000 ∧
    create_file rId ⟨[m0W], fsW⟩ pbW caW =
      Except.ok ⟨[m0W, createOpMsg pbW, entryFor pbW caW], fsWrite fsW pbW caW⟩ := by
  have hbig : 5000000 < bigC.length := by
    rw [bigC_length]
    decide
  have h1 := (write_size_limit rId ⟨[m0W], fsW⟩ paW bigC paW rfl).1 hbig
  have h2 := (write_size_limit rId ⟨[m0W], fsW⟩ pbW caW pbW rfl).2 (by decide)
  exact ⟨rfl, hbig, h1.1, h1.2, by decide, h2.1⟩

/-- C9: `normalize_path` fails with the traversal error exactly when the
resolved component sequence of the path contains a `".."` segment, and
otherwise returns the rendered resolved absolute path. -/
theorem normalize_traversal (R : Resolver) (p : Str) :
    (dotdot ∈ R.parts p → normalize_path R p = Except.error Err.pathTraversal) ∧
    (dotdot ∉ R.parts p → normalize_path R p = Except.ok (R.render (R.parts p))) := by
  constructor
  · intro h
    unfold normalize_path
    rw [if_pos h]
  · intro h
    unfold normalize_path
    rw [if_neg h]

/-- C9 witness: a resolution with a residual `".."` segment is rejected;
a clean resolution yields the rendered canonical path. -/
theorem normalize_traversal_witness :
    (dotdot ∈ rDot.parts paW ∧
      normalize_path rDot paW = Except.error Err.pathTraversal) ∧
    (dotdot ∉ rId.parts paW ∧
      normalize_path rId paW = Except.ok (rId.render (rId.parts paW))) :=
  ⟨⟨by decide, (normalize_traversal rDot paW).1 (by decide)⟩,
   ⟨by decide, (normalize_traversal rId paW).2 (by decide)⟩⟩

/-- C10: the already-in-context check is a substring match on the marker
text: for the distinct normalized paths `pPre` and `qExt = pPre ++ "'"`
(the first a string prefix of the second), a ledger holding only the
entry for `qExt` makes `ensure_file_in_context pPre` return `True`
without injecting anything — `pPre`'s file body never enters the
context. -/
theorem marker_prefix_collision :
    pPre ≠ qExt ∧
    pPre.isPrefixOf qExt = true ∧
    normalize_path rId pPre = Except.ok pPre ∧
    normalize_path rId qExt = Except.ok qExt ∧
    ensure_file_in_context rId s10 pPre = Except.ok (true, s10) ∧
    s10.hist.all (fun m => !(substrOf bodyP m.content)) = true :=
  ⟨by decide, by decide, rfl, rfl, rfl, by decide⟩

end R1
